import Mathlib

/-!
Shallow embedding of the amortization and affordability projection engine of
the mortgage-calculator repository (files `mortgage.js` and the rent-vs-buy
module), together with proofs of the specification claims.

Number model: JavaScript numbers are embedded as exact rationals extended
with the `NaN` sentinel (`JSVal`).  The spec states that the engine works in
exact arithmetic with no rounding, so floating-point rounding and the
infinities are not modelled; no claim's input domain reaches a division by
zero.  `Math.pow` on a nonnegative integer exponent is the iterated product;
`Math.pow` with a fractional exponent (only used by the rent-vs-buy
inflation loop and the sale-price growth) is abstracted as an arbitrary
function `rpow : ℚ → ℚ → ℚ`, and every theorem about the projector is proved
for every such `rpow`.
-/

namespace MortgageCalc

/-- A JavaScript number in exact arithmetic: either the NaN sentinel or a
rational value. -/
inductive JSVal where
  | nan : JSVal
  | num : ℚ → JSVal
deriving DecidableEq, Repr

namespace JSVal

/-- JS addition: NaN-propagating. -/
def add : JSVal → JSVal → JSVal
  | num a, num b => num (a + b)
  | _, _ => nan

/-- JS subtraction: NaN-propagating. -/
def sub : JSVal → JSVal → JSVal
  | num a, num b => num (a - b)
  | _, _ => nan

/-- JS multiplication: NaN-propagating. -/
def mul : JSVal → JSVal → JSVal
  | num a, num b => num (a * b)
  | _, _ => nan

/-- `Math.max`: returns NaN if either argument is NaN. -/
def jsMax : JSVal → JSVal → JSVal
  | num a, num b => num (max a b)
  | _, _ => nan

/-- JS `<=` comparison: false whenever an operand is NaN. -/
def jsLe : JSVal → JSVal → Bool
  | num a, num b => decide (a ≤ b)
  | _, _ => false

/-- JS `<` comparison: false whenever an operand is NaN. -/
def jsLt : JSVal → JSVal → Bool
  | num a, num b => decide (a < b)
  | _, _ => false

end JSVal

/-- Payment frequency (`Frequency` in `mortgage.js`). -/
inductive Frequency where
  | monthly | fortnightly | weekly
deriving DecidableEq, Repr

/-- Payment type (`PaymentType` in `mortgage.js`). -/
inductive PaymentType where
  | repayment | interestOnly
deriving DecidableEq, Repr

/-- Source `periodsPerYear`: monthly=12, fortnightly=26, weekly=52.  On the
`Frequency` enum the JS "unsupported frequency" throw is unreachable. -/
def periodsPerYear : Frequency → ℚ
  | .monthly => 12
  | .fortnightly => 26
  | .weekly => 52

/-- Source `clampMin0`: `x < 0 ? 0 : x`. -/
def clampMin0 (x : ℚ) : ℚ := if x < 0 then 0 else x

/-- JS `Math.round` on exact values: round half toward positive infinity,
i.e. `⌊x + 1/2⌋` (stated by `jsRound_eq`; written with `Rat.floor` so that it
evaluates by kernel reduction). -/
def jsRound (x : ℚ) : ℤ := Rat.floor (x + 1 / 2)

/-- Source `effectivePrincipal`: `Math.max(0, balance - Math.max(0, offsetBalance))`. -/
def effectivePrincipal (balance offsetBalance : JSVal) : JSVal :=
  JSVal.jsMax (JSVal.num 0) (balance.sub (JSVal.jsMax (JSVal.num 0) offsetBalance))

/-- Source `repaymentPayment`.  `nPeriods` is an integer (the spec's
period-count interface); for `nPeriods ≤ 0` the result is NaN, otherwise the
value is a plain number, so `Math.pow` has a positive integer exponent and is
the iterated product. -/
def repaymentPayment (principal periodicRate : ℚ) (nPeriods : ℤ) : JSVal :=
  if nPeriods ≤ 0 then JSVal.nan
  else if periodicRate = 0 then JSVal.num (principal / (nPeriods : ℚ))
  else
    let pow := (1 + periodicRate) ^ nPeriods.toNat
    JSVal.num (principal * (periodicRate * pow) / (pow - 1))

/-- Loan parameters record (§3 of the spec; the argument of `buildSchedule`).
Fields are exact numbers; the optional `offsetBalance ?? 0` is modelled as a
plain field (callers pass 0 when it is absent). -/
structure LoanParameters where
  principal : ℚ
  annualRatePct : ℚ
  years : ℚ
  frequency : Frequency
  type : PaymentType
  offsetBalance : ℚ
deriving DecidableEq, Repr

/-- One row of the amortization schedule (the object pushed by
`buildSchedule`). -/
structure Row where
  period : ℕ
  payment : JSVal
  interest : JSVal
  principalPaid : JSVal
  balance : JSVal
  effectivePrincipal : JSVal
deriving DecidableEq, Repr

/-- The per-period loop of `buildSchedule`: `for (period = 1; period <= nPeriods;
period++) { if (balance <= 0) break; ... }`, with `fuel` the number of
remaining periods and `period` the 1-based counter. -/
def scheduleLoop (type : PaymentType) (payment : JSVal) (periodicRate offsetBalance : ℚ) :
    JSVal → ℕ → ℕ → List Row
  | _, _, 0 => []
  | balance, period, fuel + 1 =>
    if JSVal.jsLe balance (JSVal.num 0) then []
    else
      let eff := effectivePrincipal balance (JSVal.num offsetBalance)
      let interest := eff.mul (JSVal.num periodicRate)
      let principalPaid :=
        match type with
        | .interestOnly => JSVal.num 0
        | .repayment =>
          let pp := JSVal.jsMax (JSVal.num 0) (payment.sub interest)
          if JSVal.jsLt balance pp then balance else pp
      let newBalance := JSVal.jsMax (JSVal.num 0) (balance.sub principalPaid)
      { period := period, payment := payment, interest := interest,
        principalPaid := principalPaid, balance := newBalance,
        effectivePrincipal := eff } ::
        scheduleLoop type payment periodicRate offsetBalance newBalance (period + 1) fuel

/-- The record returned by `buildSchedule`. -/
structure ScheduleResult where
  payment : JSVal
  periodicRate : ℚ
  nPeriods : ℤ
  schedule : List Row
deriving DecidableEq, Repr

/-- Source `buildSchedule`. -/
def buildSchedule (params : LoanParameters) : ScheduleResult :=
  let principal := clampMin0 params.principal
  let annualRatePct := clampMin0 params.annualRatePct
  let years := clampMin0 params.years
  let offsetBalance := clampMin0 params.offsetBalance
  let ppy := periodsPerYear params.frequency
  let nPeriods := jsRound (years * ppy)
  let periodicRate := annualRatePct / 100 / ppy
  let payment :=
    match params.type with
    | .interestOnly => JSVal.num (principal * periodicRate)
    | .repayment => repaymentPayment principal periodicRate nPeriods
  { payment := payment, periodicRate := periodicRate, nPeriods := nPeriods,
    schedule := scheduleLoop params.type payment periodicRate offsetBalance
      (JSVal.num principal) 1 nPeriods.toNat }

/-- Sum of the `principalPaid` column of a schedule, in JS arithmetic. -/
def sumPrincipalPaid (rows : List Row) : JSVal :=
  (rows.map Row.principalPaid).foldr JSVal.add (JSVal.num 0)

/-- Rational value of one period's effective principal
(`max(0, balance - max(0, offsetBalance))`), used to describe the loop on
number-valued states. -/
def effQ (b off : ℚ) : ℚ := max 0 (b - max 0 off)

/-- Rational value of one period's `principalPaid` for a number-valued payment
and balance. -/
def ppQ (type : PaymentType) (P r off b : ℚ) : ℚ :=
  match type with
  | .interestOnly => 0
  | .repayment =>
    let pp := max 0 (P - effQ b off * r)
    if b < pp then b else pp

/-- Rational value of one period's new balance for a number-valued payment and
balance. -/
def nbQ (type : PaymentType) (P r off b : ℚ) : ℚ := max 0 (b - ppQ type P r off b)

/-- `amortizes r P b k` says the fixed payment `P` pays a balance `b` down to
exactly 0 in exactly `k` periods at periodic rate `r`, with the balance
positive and the interest at most the payment at every step. -/
def amortizes (r P : ℚ) : ℚ → ℕ → Prop
  | b, 0 => b = 0
  | b, k + 1 => 0 < b ∧ r * b ≤ P ∧ amortizes r P ((1 + r) * b - P) k

/-- Source `monthlyMortgagePayment` from the rent-vs-buy module. -/
def monthlyMortgagePayment (principal annualRatePct years : ℚ) : JSVal :=
  let r := annualRatePct / 100 / 12
  let n := jsRound (years * 12)
  if n ≤ 0 then JSVal.nan
  else repaymentPayment principal r n

/-- Source `clamp01`: `Math.max(0, Math.min(1, x))`. -/
def clamp01 (x : ℚ) : ℚ := max 0 (min 1 x)

/-- Result shape of the external stamp-duty lookup (`{ ok, total }`). -/
structure SdltResult where
  ok : Bool
  total : ℚ
deriving DecidableEq, Repr

/-- Input record of `rentVsBuy` (§3 AffordabilityParams).  The optional fee
fields (`?? 0` in the source) are plain fields; callers pass 0 when absent. -/
structure AffordabilityParams where
  price : ℚ
  depositPct : ℚ
  mortgageRatePct : ℚ
  termYears : ℚ
  ownerMonthlyCosts : ℚ
  rentMonthly : ℚ
  rentExtraMonthly : ℚ
  horizonYears : ℚ
  rentInflationPct : ℚ
  ownerCostInflationPct : ℚ
  priceGrowthPct : ℚ
  sellingCostPct : ℚ
  legalFees : ℚ
  surveyFees : ℚ
  saleLegalFees : ℚ
  includeSdlt : Bool
deriving DecidableEq, Repr

/-- Result record of `rentVsBuy`. -/
structure AffordabilityResult where
  deposit : ℚ
  principal : ℚ
  mortgageMonthly : JSVal
  rentMonthly0 : ℚ
  ownerMonthly : JSVal
  rentTotalBasic : ℚ
  buyTotalBasic : JSVal
  rentTotal : ℚ
  buyTotal : JSVal
  sdlt : ℚ
  buyUpfront : ℚ
  salePrice : ℚ
  selling : ℚ
  remainingBalance : JSVal
  equity : JSVal
  buyNetCost : JSVal
deriving DecidableEq, Repr

/-- The remaining-balance walk of `rentVsBuy`:
`for (i=0; i<Math.min(months,n); i++) { interest = balance*r;
principalPaid = max(0, pmt - interest); balance = max(0, balance - principalPaid) }`. -/
def remainingBalanceLoop (r : ℚ) (pmt : JSVal) : JSVal → ℕ → JSVal
  | balance, 0 => balance
  | balance, k + 1 =>
    let interest := balance.mul (JSVal.num r)
    let principalPaid := JSVal.jsMax (JSVal.num 0) (pmt.sub interest)
    remainingBalanceLoop r pmt (JSVal.jsMax (JSVal.num 0) (balance.sub principalPaid)) k

/-- Source `rentVsBuy`.  `rpow` abstracts `Math.pow` on fractional exponents
(inflation loop and sale-price growth); every theorem holds for every `rpow`.
`calcSdlt` is modelled from the spec: the file `sdlt.js` it is imported from
is not under `src/`, and per the spec it is an external banded-tax lookup
`(price, options) → { ok, total }` whose options are the fixed literal of the
call site, so it is abstracted as a function of the price. -/
def rentVsBuy (rpow : ℚ → ℚ → ℚ) (calcSdlt : ℚ → SdltResult)
    (params : AffordabilityParams) : AffordabilityResult :=
  let price := params.price
  let deposit := price * clamp01 (params.depositPct / 100)
  let principal := max 0 (price - deposit)
  let mortgageMonthly := monthlyMortgagePayment principal params.mortgageRatePct params.termYears
  let ownerMonthly := mortgageMonthly.add (JSVal.num params.ownerMonthlyCosts)
  let rentMonthly0 := params.rentMonthly + params.rentExtraMonthly
  let months := jsRound (params.horizonYears * 12)
  let rentTotalBasic := rentMonthly0 * (months : ℚ)
  let buyTotalBasic := ownerMonthly.mul (JSVal.num (months : ℚ))
  let rentInfl := params.rentInflationPct / 100
  let ownerInfl := params.ownerCostInflationPct / 100
  let totals := (List.range months.toNat).foldl
    (fun (acc : ℚ × JSVal) (m : ℕ) =>
      let y : ℚ := (m : ℚ) / 12
      (acc.1 + rentMonthly0 * rpow (1 + rentInfl) y,
       acc.2.add (ownerMonthly.mul (JSVal.num (rpow (1 + ownerInfl) y)))))
    ((0 : ℚ), JSVal.num 0)
  let rentTotal := totals.1
  let buyTotal := totals.2
  let sdlt := if params.includeSdlt then calcSdlt price else { ok := true, total := 0 }
  let sdltCost := if sdlt.ok then sdlt.total else 0
  let buyUpfront := params.legalFees + params.surveyFees + sdltCost
  let salePrice := price * rpow (1 + params.priceGrowthPct / 100) params.horizonYears
  let selling := salePrice * (params.sellingCostPct / 100) + params.saleLegalFees
  let r := params.mortgageRatePct / 100 / 12
  let n := jsRound (params.termYears * 12)
  let balance := remainingBalanceLoop r mortgageMonthly (JSVal.num principal) (min months n).toNat
  let equity := JSVal.jsMax (JSVal.num 0)
    (((JSVal.num salePrice).sub balance).sub (JSVal.num selling))
  let buyNetCost := (buyTotal.add (JSVal.num buyUpfront)).sub equity
  { deposit := deposit, principal := principal, mortgageMonthly := mortgageMonthly,
    rentMonthly0 := rentMonthly0, ownerMonthly := ownerMonthly,
    rentTotalBasic := rentTotalBasic, buyTotalBasic := buyTotalBasic,
    rentTotal := rentTotal, buyTotal := buyTotal, sdlt := sdltCost,
    buyUpfront := buyUpfront, salePrice := salePrice, selling := selling,
    remainingBalance := balance, equity := equity, buyNetCost := buyNetCost }

/-- A concrete one-period zero-rate repayment loan, used by closed witness
statements. -/
def loanA : LoanParameters :=
  { principal := 100, annualRatePct := 0, years := 1 / 12,
    frequency := .monthly, type := .repayment, offsetBalance := 0 }

/-- A concrete two-period zero-rate repayment loan, used by closed witness
statements. -/
def loanB : LoanParameters :=
  { principal := 100, annualRatePct := 0, years := 2 / 12,
    frequency := .monthly, type := .repayment, offsetBalance := 0 }

/-- A concrete fully-offset repayment loan (offset above principal), used by
closed witness statements. -/
def loanC : LoanParameters :=
  { principal := 100, annualRatePct := 0, years := 1 / 12,
    frequency := .monthly, type := .repayment, offsetBalance := 200 }

/-- A concrete one-period interest-only loan, used by closed witness
statements. -/
def loanD : LoanParameters :=
  { principal := 100, annualRatePct := 12, years := 1 / 12,
    frequency := .monthly, type := .interestOnly, offsetBalance := 0 }

/-- A concrete one-period positive-rate repayment loan, used by closed
witness statements about offset comparisons. -/
def loanE : LoanParameters :=
  { principal := 100, annualRatePct := 12, years := 1 / 12,
    frequency := .monthly, type := .repayment, offsetBalance := 0 }

/-- The 50-offset variant of `loanE`, used by closed witness statements. -/
def loanE2 : LoanParameters :=
  { principal := 100, annualRatePct := 12, years := 1 / 12,
    frequency := .monthly, type := .repayment, offsetBalance := 50 }

/-- The second row of the concrete two-period loan `loanB`, used by the C6
witness. -/
def rowB1 : Row :=
  { period := 2, payment := JSVal.num 50, interest := JSVal.num 0,
    principalPaid := JSVal.num 50, balance := JSVal.num 0,
    effectivePrincipal := JSVal.num 50 }

/-- The single row of the concrete one-period loan `loanA`, used by the C7
witness. -/
def rowA : Row :=
  { period := 1, payment := JSVal.num 100, interest := JSVal.num 0,
    principalPaid := JSVal.num 100, balance := JSVal.num 0,
    effectivePrincipal := JSVal.num 100 }

/-- The single row of the concrete loan `loanE`, used by the C3 witness. -/
def rowE1 : Row :=
  { period := 1, payment := JSVal.num 101, interest := JSVal.num 1,
    principalPaid := JSVal.num 100, balance := JSVal.num 0,
    effectivePrincipal := JSVal.num 100 }

/-- The single row of the concrete loan `loanE2`, used by the C3 witness. -/
def rowE2 : Row :=
  { period := 1, payment := JSVal.num 101, interest := JSVal.num (1 / 2),
    principalPaid := JSVal.num 100, balance := JSVal.num 0,
    effectivePrincipal := JSVal.num 50 }

/-- The single row of the concrete fully-offset loan `loanC`, used by the C5
witness. -/
def rowC : Row :=
  { period := 1, payment := JSVal.num 100, interest := JSVal.num 0,
    principalPaid := JSVal.num 100, balance := JSVal.num 0,
    effectivePrincipal := JSVal.num 0 }

/-- The single row of the concrete interest-only loan `loanD`, used by the C9
witness. -/
def rowD : Row :=
  { period := 1, payment := JSVal.num 1, interest := JSVal.num 1,
    principalPaid := JSVal.num 0, balance := JSVal.num 100,
    effectivePrincipal := JSVal.num 100 }

/-- A concrete stand-in for `Math.pow` used by closed witness statements. -/
def powOne : ℚ → ℚ → ℚ := fun _ _ => 1

/-- A concrete stand-in for the stamp-duty lookup used by closed witness
statements. -/
def sdltZero : ℚ → SdltResult := fun _ => { ok := true, total := 0 }

/-- Affordability parameters with a negative monthly rent, used by the C2
counterexample. -/
def apNeg : AffordabilityParams :=
  { price := 100000, depositPct := 20, mortgageRatePct := 0, termYears := 0,
    ownerMonthlyCosts := 0, rentMonthly := -100, rentExtraMonthly := 0,
    horizonYears := 1, rentInflationPct := 0, ownerCostInflationPct := 0,
    priceGrowthPct := 0, sellingCostPct := 0, legalFees := 0, surveyFees := 0,
    saleLegalFees := 0, includeSdlt := false }

/-- Concrete affordability parameters with a well-defined one-month mortgage,
used by the C8 witness. -/
def apW8 : AffordabilityParams :=
  { price := 1000, depositPct := 0, mortgageRatePct := 0, termYears := 1 / 12,
    ownerMonthlyCosts := 0, rentMonthly := 10, rentExtraMonthly := 0,
    horizonYears := 1 / 12, rentInflationPct := 0, ownerCostInflationPct := 0,
    priceGrowthPct := 0, sellingCostPct := 0, legalFees := 0, surveyFees := 0,
    saleLegalFees := 0, includeSdlt := false }

/-- Concrete affordability parameters whose term rounds to zero months while
the horizon rounds to one month, used by the C10 witness. -/
def apW10 : AffordabilityParams :=
  { price := 1000, depositPct := 0, mortgageRatePct := 5, termYears := 0,
    ownerMonthlyCosts := 10, rentMonthly := 10, rentExtraMonthly := 0,
    horizonYears := 1 / 12, rentInflationPct := 2, ownerCostInflationPct := 2,
    priceGrowthPct := 2, sellingCostPct := 1, legalFees := 100, surveyFees := 50,
    saleLegalFees := 50, includeSdlt := false }

/-- `apNeg` with the negative rent replaced by 0, used by the C2
counterexample. -/
def apNeg0 : AffordabilityParams := { apNeg with rentMonthly := 0 }

/-- A LoanParameters record with its four numeric loan fields clamped to at
least 0, as `buildSchedule` does internally. -/
def clampLoanParams (params : LoanParameters) : LoanParameters :=
  { params with
    principal := clampMin0 params.principal,
    annualRatePct := clampMin0 params.annualRatePct,
    years := clampMin0 params.years,
    offsetBalance := clampMin0 params.offsetBalance }

/-- An AffordabilityParams record with the deposit percentage replaced by
100 times its clamped `[0,1]` fraction, as `rentVsBuy` effectively uses. -/
def clampDepositPct (ap : AffordabilityParams) : AffordabilityParams :=
  { ap with depositPct := 100 * clamp01 (ap.depositPct / 100) }

/-! ## Helper lemmas on the number model -/

@[simp]
theorem JSVal.add_num (a b : ℚ) : (JSVal.num a).add (JSVal.num b) = JSVal.num (a + b) := rfl

@[simp]
theorem JSVal.sub_num (a b : ℚ) : (JSVal.num a).sub (JSVal.num b) = JSVal.num (a - b) := rfl

@[simp]
theorem JSVal.mul_num (a b : ℚ) : (JSVal.num a).mul (JSVal.num b) = JSVal.num (a * b) := rfl

@[simp]
theorem JSVal.jsMax_num (a b : ℚ) :
    JSVal.jsMax (JSVal.num a) (JSVal.num b) = JSVal.num (max a b) := rfl

@[simp]
theorem JSVal.jsLe_num (a b : ℚ) :
    JSVal.jsLe (JSVal.num a) (JSVal.num b) = decide (a ≤ b) := rfl

@[simp]
theorem JSVal.jsLt_num (a b : ℚ) :
    JSVal.jsLt (JSVal.num a) (JSVal.num b) = decide (a < b) := rfl

@[simp]
theorem JSVal.nan_add (v : JSVal) : JSVal.nan.add v = JSVal.nan := rfl

@[simp]
theorem JSVal.add_nan (v : JSVal) : v.add JSVal.nan = JSVal.nan := by cases v <;> rfl

@[simp]
theorem JSVal.nan_sub (v : JSVal) : JSVal.nan.sub v = JSVal.nan := rfl

@[simp]
theorem JSVal.nan_mul (v : JSVal) : JSVal.nan.mul v = JSVal.nan := rfl

@[simp]
theorem JSVal.mul_nan (v : JSVal) : v.mul JSVal.nan = JSVal.nan := by cases v <;> rfl

@[simp]
theorem effectivePrincipal_num (b off : ℚ) :
    effectivePrincipal (JSVal.num b) (JSVal.num off) = JSVal.num (effQ b off) := rfl

/-! ## Helper lemmas on the schedule loop -/

theorem scheduleLoop_fuel_zero (t : PaymentType) (pay : JSVal) (r off : ℚ) (b : JSVal)
    (period : ℕ) : scheduleLoop t pay r off b period 0 = [] := rfl

theorem scheduleLoop_stop (t : PaymentType) (pay : JSVal) (r off : ℚ) (b : JSVal)
    (period fuel : ℕ) (hb : JSVal.jsLe b (JSVal.num 0) = true) :
    scheduleLoop t pay r off b period fuel = [] := by
  cases fuel with
  | zero => rfl
  | succ k => simp [scheduleLoop, hb]

theorem scheduleLoop_zero_balance (t : PaymentType) (pay : JSVal) (r off : ℚ)
    (period fuel : ℕ) :
    scheduleLoop t pay r off (JSVal.num 0) period fuel = [] := by
  apply scheduleLoop_stop
  simp

/-- Unfolding the loop one step on a number-valued state with positive
balance and number-valued payment: the emitted row and the next state are
given by the rational step functions `effQ`, `ppQ`, `nbQ`. -/
theorem scheduleLoop_succ_pos (t : PaymentType) (P r off b : ℚ) (period fuel : ℕ)
    (hb : 0 < b) :
    scheduleLoop t (JSVal.num P) r off (JSVal.num b) period (fuel + 1) =
      { period := period, payment := JSVal.num P,
        interest := JSVal.num (effQ b off * r),
        principalPaid := JSVal.num (ppQ t P r off b),
        balance := JSVal.num (nbQ t P r off b),
        effectivePrincipal := JSVal.num (effQ b off) } ::
        scheduleLoop t (JSVal.num P) r off (JSVal.num (nbQ t P r off b)) (period + 1) fuel := by
  have hble : ¬ (b ≤ 0) := not_le.mpr hb
  cases t with
  | interestOnly =>
    simp [scheduleLoop, hble, ppQ, nbQ, JSVal.jsLe]
  | repayment =>
    by_cases hc : b < max 0 (P - effQ b off * r)
    · simp [scheduleLoop, hble, ppQ, nbQ, JSVal.jsLe, hc]
    · simp [scheduleLoop, hble, ppQ, nbQ, JSVal.jsLe, hc]

theorem scheduleLoop_length_le (t : PaymentType) (pay : JSVal) (r off : ℚ) :
    ∀ (fuel : ℕ) (b : JSVal) (period : ℕ),
      (scheduleLoop t pay r off b period fuel).length ≤ fuel := by
  intro fuel
  induction fuel with
  | zero => intro b period; simp [scheduleLoop]
  | succ k ih =>
    intro b period
    by_cases hb : JSVal.jsLe b (JSVal.num 0) = true
    · simp [scheduleLoop, hb]
    · simp only [scheduleLoop, hb]
      simpa using Nat.succ_le_succ (ih _ _)

/-! ## Exact amortization of the repayment formula -/

theorem amortizes_zero_iff (r P b : ℚ) : amortizes r P b 0 ↔ b = 0 := Iff.rfl

theorem amortizes_succ_iff (r P b : ℚ) (k : ℕ) :
    amortizes r P b (k + 1) ↔
      0 < b ∧ r * b ≤ P ∧ amortizes r P ((1 + r) * b - P) k := Iff.rfl

theorem amortizes_nonneg (r P b : ℚ) (k : ℕ) (h : amortizes r P b k) : 0 ≤ b := by
  cases k with
  | zero => exact le_of_eq ((amortizes_zero_iff r P b).mp h).symm
  | succ k => exact le_of_lt ((amortizes_succ_iff r P b k).mp h).1

theorem sumPrincipalPaid_nil : sumPrincipalPaid [] = JSVal.num 0 := rfl

theorem sumPrincipalPaid_cons (row : Row) (rows : List Row) :
    sumPrincipalPaid (row :: rows) = row.principalPaid.add (sumPrincipalPaid rows) := rfl

/-- If the payment `P` amortizes the balance `b` in exactly `k` periods with
no clamp ever firing, then the schedule loop run with fuel `k`, zero offset
and repayment type emits exactly `k` rows, their `principalPaid` column sums
to `b`, and the last row carries balance 0. -/
theorem scheduleLoop_of_amortizes (r P : ℚ) :
    ∀ (k : ℕ) (b : ℚ) (period : ℕ), amortizes r P b k →
      (scheduleLoop .repayment (JSVal.num P) r 0 (JSVal.num b) period k).length = k ∧
      sumPrincipalPaid (scheduleLoop .repayment (JSVal.num P) r 0 (JSVal.num b) period k) =
        JSVal.num b ∧
      (1 ≤ k → ∃ last,
        (scheduleLoop .repayment (JSVal.num P) r 0 (JSVal.num b) period k).getLast? =
          some last ∧ last.balance = JSVal.num 0) := by
  intro k
  induction k with
  | zero =>
    intro b period ha
    have hb : b = 0 := ha
    subst hb
    refine ⟨rfl, rfl, ?_⟩
    intro h
    exact absurd h (by omega)
  | succ k ih =>
    intro b period ha
    obtain ⟨hb, hrb, hnext⟩ := (amortizes_succ_iff r P b k).mp ha
    have hnext0 : 0 ≤ (1 + r) * b - P := amortizes_nonneg _ _ _ _ hnext
    have heff : effQ b 0 = b := by
      simp [effQ, le_of_lt hb]
    have hpp0 : max 0 (P - effQ b 0 * r) = P - b * r := by
      rw [heff]
      have : 0 ≤ P - b * r := by
        rw [mul_comm] at hrb
        linarith
      exact max_eq_right this
    have hcap : ¬ (b < max 0 (P - effQ b 0 * r)) := by
      rw [hpp0]
      nlinarith
    have hppQ : ppQ .repayment P r 0 b = P - b * r := by
      simp only [ppQ]
      rw [if_neg hcap, hpp0]
    have hnbQ : nbQ .repayment P r 0 b = (1 + r) * b - P := by
      simp only [nbQ, hppQ]
      have h1 : b - (P - b * r) = (1 + r) * b - P := by ring
      rw [h1]
      exact max_eq_right hnext0
    rw [scheduleLoop_succ_pos .repayment P r 0 b period k hb, hppQ, hnbQ]
    obtain ⟨ihlen, ihsum, ihlast⟩ := ih ((1 + r) * b - P) (period + 1) hnext
    refine ⟨by simpa using ihlen, ?_, ?_⟩
    · rw [sumPrincipalPaid_cons, ihsum]
      simp only [JSVal.add_num]
      congr 1
      ring
    · intro _
      cases k with
      | zero =>
        have hz : (1 + r) * b - P = 0 := hnext
        rw [scheduleLoop_fuel_zero]
        exact ⟨_, rfl, by simpa using hz⟩
      | succ m =>
        obtain ⟨last, hl1, hl2⟩ := ihlast (by omega)
        refine ⟨last, ?_, hl2⟩
        cases hrest : scheduleLoop .repayment (JSVal.num P) r 0
            (JSVal.num ((1 + r) * b - P)) (period + 1) (m + 1) with
        | nil =>
          rw [hrest] at ihlen
          simp at ihlen
        | cons a l =>
          rw [hrest] at hl1
          rw [List.getLast?_cons_cons]
          exact hl1

theorem jsRound_eq (x : ℚ) : jsRound x = ⌊x + 1 / 2⌋ :=
  (Rat.floor_def' (x + 1 / 2)).trans Rat.floor_def.symm

theorem clampMin0_nonneg (x : ℚ) : 0 ≤ clampMin0 x := by
  unfold clampMin0
  split <;> linarith

theorem clampMin0_of_nonneg (x : ℚ) (h : 0 ≤ x) : clampMin0 x = x := by
  unfold clampMin0
  split <;> linarith

theorem clampMin0_idem (x : ℚ) : clampMin0 (clampMin0 x) = clampMin0 x :=
  clampMin0_of_nonneg _ (clampMin0_nonneg x)

theorem periodsPerYear_pos (f : Frequency) : 0 < periodsPerYear f := by
  cases f <;> norm_num [periodsPerYear]

/-- A zero periodic rate with a positive payment amortizes `k` payments worth
of balance in `k` periods. -/
theorem amortizes_zero_rate (P : ℚ) (hP : 0 < P) : ∀ k : ℕ, amortizes 0 P ((k : ℚ) * P) k := by
  intro k
  induction k with
  | zero =>
    rw [amortizes_zero_iff]
    ring
  | succ k ih =>
    rw [amortizes_succ_iff]
    refine ⟨by positivity, by nlinarith, ?_⟩
    have h : (1 + 0) * (((k : ℚ) + 1) * P) - P = (k : ℚ) * P := by ring
    rw [Nat.cast_succ, h]
    exact ih

/-- A positive periodic rate with the annuity-formula payment amortizes the
balance in exactly `n` periods. -/
theorem amortizes_pos_rate (r : ℚ) (hr : 0 < r) :
    ∀ n : ℕ, 1 ≤ n → ∀ b : ℚ, 0 < b →
      amortizes r (b * (r * (1 + r) ^ n) / ((1 + r) ^ n - 1)) b n := by
  intro n hn
  induction n, hn using Nat.le_induction with
  | base =>
    intro b hb
    have hrne : r ≠ 0 := ne_of_gt hr
    have hP : b * (r * (1 + r) ^ 1) / ((1 + r) ^ 1 - 1) = b * (1 + r) := by
      rw [pow_one]
      have h1 : 1 + r - 1 = r := by ring
      rw [h1]
      field_simp
      ring
    rw [hP, amortizes_succ_iff]
    refine ⟨hb, by nlinarith, ?_⟩
    rw [amortizes_zero_iff]
    ring
  | succ n hn ih =>
    intro b hb
    have hr1 : (1 : ℚ) < 1 + r := by linarith
    have hB : (1 : ℚ) < (1 + r) ^ n := one_lt_pow₀ hr1 (by omega)
    have hA : (1 : ℚ) < (1 + r) ^ (n + 1) := one_lt_pow₀ hr1 (by omega)
    have hBpos : (0 : ℚ) < (1 + r) ^ n - 1 := by linarith
    have hApos : (0 : ℚ) < (1 + r) ^ (n + 1) - 1 := by linarith
    have hpowsucc : (1 + r) ^ (n + 1) = (1 + r) ^ n * (1 + r) := pow_succ (1 + r) n
    have hBne : ((1 + r) ^ n - 1 : ℚ) ≠ 0 := ne_of_gt hBpos
    have hAne : ((1 + r) ^ n * (1 + r) - 1 : ℚ) ≠ 0 := by
      rw [← hpowsucc]
      exact ne_of_gt hApos
    set P := b * (r * (1 + r) ^ (n + 1)) / ((1 + r) ^ (n + 1) - 1) with hPdef
    rw [amortizes_succ_iff]
    have hrb : r * b ≤ P := by
      rw [hPdef, le_div_iff₀ hApos]
      nlinarith [mul_nonneg hr.le hb.le, mul_pos hr hb]
    have hb' : 0 < (1 + r) * b - P := by
      have hlt : P < (1 + r) * b := by
        rw [hPdef, div_lt_iff₀ hApos]
        rw [hpowsucc]
        nlinarith [mul_pos hr hb, mul_pos (mul_pos hr hb) (sub_pos.mpr hB)]
      linarith
    refine ⟨hb, hrb, ?_⟩
    have key : ((1 + r) * b - P) * (r * (1 + r) ^ n) / ((1 + r) ^ n - 1) = P := by
      rw [hPdef, hpowsucc]
      field_simp
      ring
    have := ih ((1 + r) * b - P) hb'
    rw [key] at this
    exact this

/-- For a positive period count and a nonnegative rate, `repaymentPayment`
returns a number that exactly amortizes a positive principal over
`nPeriods` periods. -/
theorem repaymentPayment_amortizes (p r : ℚ) (n : ℤ) (hp : 0 < p) (hr : 0 ≤ r)
    (hn : 1 ≤ n) :
    ∃ P, repaymentPayment p r n = JSVal.num P ∧ amortizes r P p n.toNat := by
  have hn0 : ¬ (n ≤ 0) := by omega
  have hnt : 1 ≤ n.toNat := by omega
  by_cases hr0 : r = 0
  · subst hr0
    refine ⟨p / (n : ℚ), ?_, ?_⟩
    · simp [repaymentPayment, hn0]
    · have hnq : (0 : ℚ) < (n : ℚ) := by exact_mod_cast (by omega : (0 : ℤ) < n)
      have hPpos : 0 < p / (n : ℚ) := div_pos hp hnq
      have h := amortizes_zero_rate (p / (n : ℚ)) hPpos n.toNat
      have hcast : ((n.toNat : ℚ)) * (p / (n : ℚ)) = p := by
        have h1 : ((n.toNat : ℚ)) = (n : ℚ) := by
          exact_mod_cast Int.toNat_of_nonneg (by omega : (0 : ℤ) ≤ n)
        rw [h1]
        field_simp
      rw [hcast] at h
      exact h
  · have hrpos : 0 < r := lt_of_le_of_ne hr (Ne.symm hr0)
    refine ⟨p * (r * (1 + r) ^ n.toNat) / ((1 + r) ^ n.toNat - 1), ?_, ?_⟩
    · simp [repaymentPayment, hn0, hr0]
    · exact amortizes_pos_rate r hrpos n.toNat hnt p hp

/-! ## Projections of buildSchedule -/

theorem buildSchedule_nPeriods (params : LoanParameters) :
    (buildSchedule params).nPeriods =
      jsRound (clampMin0 params.years * periodsPerYear params.frequency) := rfl

theorem buildSchedule_periodicRate (params : LoanParameters) :
    (buildSchedule params).periodicRate =
      clampMin0 params.annualRatePct / 100 / periodsPerYear params.frequency := rfl

theorem buildSchedule_payment_repayment (params : LoanParameters)
    (h : params.type = .repayment) :
    (buildSchedule params).payment =
      repaymentPayment (clampMin0 params.principal) (buildSchedule params).periodicRate
        (buildSchedule params).nPeriods := by
  simp [buildSchedule, h, buildSchedule_periodicRate, buildSchedule_nPeriods]

theorem buildSchedule_payment_interestOnly (params : LoanParameters)
    (h : params.type = .interestOnly) :
    (buildSchedule params).payment =
      JSVal.num (clampMin0 params.principal * (buildSchedule params).periodicRate) := by
  simp [buildSchedule, h, buildSchedule_periodicRate]

theorem buildSchedule_schedule (params : LoanParameters) :
    (buildSchedule params).schedule =
      scheduleLoop params.type (buildSchedule params).payment
        (buildSchedule params).periodicRate (clampMin0 params.offsetBalance)
        (JSVal.num (clampMin0 params.principal)) 1 (buildSchedule params).nPeriods.toNat := rfl

theorem buildSchedule_periodicRate_nonneg (params : LoanParameters) :
    0 ≤ (buildSchedule params).periodicRate := by
  rw [buildSchedule_periodicRate]
  have h1 : 0 ≤ clampMin0 params.annualRatePct / 100 :=
    div_nonneg (clampMin0_nonneg _) (by norm_num)
  exact div_nonneg h1 (periodsPerYear_pos params.frequency).le

/-! ## Claim theorems -/

/-- C1: for every repayment-type LoanParameters with positive principal, zero
offsetBalance and a period count of at least 1, the payment returned by the
periodic payment solver fully amortizes the principal in exact arithmetic:
the schedule's last row carries balance 0, and the `principalPaid` column
sums to the principal. -/
theorem repayment_schedule_fully_amortizes (params : LoanParameters)
    (htype : params.type = .repayment)
    (hp : 0 < params.principal)
    (hoff : params.offsetBalance = 0)
    (hn : 1 ≤ (buildSchedule params).nPeriods) :
    (∃ last, (buildSchedule params).schedule.getLast? = some last ∧
      last.balance = JSVal.num 0) ∧
    sumPrincipalPaid (buildSchedule params).schedule = JSVal.num params.principal := by
  have hpclamp : clampMin0 params.principal = params.principal :=
    clampMin0_of_nonneg _ hp.le
  have hoffclamp : clampMin0 params.offsetBalance = 0 := by
    rw [hoff]
    exact clampMin0_of_nonneg _ le_rfl
  obtain ⟨P, hP, hamort⟩ := repaymentPayment_amortizes params.principal
    (buildSchedule params).periodicRate (buildSchedule params).nPeriods hp
    (buildSchedule_periodicRate_nonneg params) hn
  have hsched : (buildSchedule params).schedule =
      scheduleLoop .repayment (JSVal.num P) (buildSchedule params).periodicRate 0
        (JSVal.num params.principal) 1 (buildSchedule params).nPeriods.toNat := by
    rw [buildSchedule_schedule, buildSchedule_payment_repayment params htype, hpclamp,
      hoffclamp, htype, hP]
  obtain ⟨hlen, hsum, hlast⟩ :=
    scheduleLoop_of_amortizes (buildSchedule params).periodicRate P
      (buildSchedule params).nPeriods.toNat params.principal 1 hamort
  rw [hsched]
  exact ⟨hlast (by omega), hsum⟩

/-- C1 witness: a concrete one-period zero-rate repayment loan satisfies the
hypotheses, and its schedule ends at balance 0 with principalPaid summing to
the principal. -/
theorem repayment_schedule_fully_amortizes_witness :
    (∃ last, (buildSchedule loanA).schedule.getLast? = some last ∧
      last.balance = JSVal.num 0) ∧
    sumPrincipalPaid (buildSchedule loanA).schedule = JSVal.num 100 :=
  repayment_schedule_fully_amortizes loanA rfl (by norm_num [loanA]) rfl
    (by rw [buildSchedule_nPeriods, jsRound_eq]; norm_num [clampMin0, periodsPerYear, loanA])

/-- C4: for every non-negative principal and non-negative periodic rate, the
periodic payment solver returns NaN when the period count is at most 0,
`principal / n` when the rate is 0 and `n > 0`, and otherwise the exact
annuity formula `principal * rate * (1+rate)^n / ((1+rate)^n - 1)`, with no
rounding. -/
theorem repaymentPayment_spec (p r : ℚ) (_hp : 0 ≤ p) (_hr : 0 ≤ r) (n : ℤ) :
    (n ≤ 0 → repaymentPayment p r n = JSVal.nan) ∧
    (0 < n → r = 0 → repaymentPayment p r n = JSVal.num (p / (n : ℚ))) ∧
    (0 < n → r ≠ 0 →
      repaymentPayment p r n =
        JSVal.num (p * r * (1 + r) ^ n.toNat / ((1 + r) ^ n.toNat - 1))) := by
  refine ⟨?_, ?_, ?_⟩
  · intro h
    simp [repaymentPayment, h]
  · intro h hr0
    simp [repaymentPayment, not_le.mpr h, hr0]
  · intro h hr0
    simp only [repaymentPayment, if_neg (not_le.mpr h), if_neg hr0, JSVal.num.injEq]
    ring

/-- C4 witness: the three branches at principal 100, rate 1/100, period
count 12. -/
theorem repaymentPayment_spec_witness :
    ((12 : ℤ) ≤ 0 → repaymentPayment 100 (1 / 100) 12 = JSVal.nan) ∧
    ((0 : ℤ) < 12 → (1 / 100 : ℚ) = 0 →
      repaymentPayment 100 (1 / 100) 12 = JSVal.num (100 / ((12 : ℤ) : ℚ))) ∧
    ((0 : ℤ) < 12 → (1 / 100 : ℚ) ≠ 0 →
      repaymentPayment 100 (1 / 100) 12 =
        JSVal.num (100 * (1 / 100) * (1 + 1 / 100) ^ (12 : ℤ).toNat /
          ((1 + 1 / 100) ^ (12 : ℤ).toNat - 1))) :=
  repaymentPayment_spec 100 (1 / 100) (by norm_num) (by norm_num) 12

/-- Every row of an interest-only schedule loop has principalPaid 0. -/
theorem scheduleLoop_interestOnly_principalPaid (pay : JSVal) (r off : ℚ) :
    ∀ (fuel : ℕ) (b : JSVal) (period : ℕ),
      ∀ row ∈ scheduleLoop .interestOnly pay r off b period fuel,
        row.principalPaid = JSVal.num 0 := by
  intro fuel
  induction fuel with
  | zero =>
    intro b period row hrow
    simp [scheduleLoop] at hrow
  | succ k ih =>
    intro b period row hrow
    by_cases hb : JSVal.jsLe b (JSVal.num 0) = true
    · rw [scheduleLoop_stop _ _ _ _ _ _ _ hb] at hrow
      simp at hrow
    · simp only [scheduleLoop, if_neg hb, List.mem_cons] at hrow
      rcases hrow with hrow | hrow
      · rw [hrow]
      · exact ih _ _ _ hrow

/-- C9: for every interest-only LoanParameters, the schedule's fixed payment
is the clamped principal times the periodic rate (computed from the full
principal, not the effective principal), and every emitted row has
principalPaid 0. -/
theorem interestOnly_payment_and_rows (params : LoanParameters)
    (h : params.type = .interestOnly) :
    (buildSchedule params).payment =
      JSVal.num (clampMin0 params.principal * (buildSchedule params).periodicRate) ∧
    ∀ row ∈ (buildSchedule params).schedule, row.principalPaid = JSVal.num 0 := by
  refine ⟨buildSchedule_payment_interestOnly params h, ?_⟩
  intro row hrow
  rw [buildSchedule_schedule, h] at hrow
  exact scheduleLoop_interestOnly_principalPaid _ _ _ _ _ _ _ hrow

/-- C9 witness: the concrete one-period interest-only loan.  Its single row
has principalPaid 0 and the payment is principal times periodic rate. -/
theorem interestOnly_payment_and_rows_witness :
    (buildSchedule loanD).payment =
      JSVal.num (clampMin0 loanD.principal * (buildSchedule loanD).periodicRate) ∧
    rowD.principalPaid = JSVal.num 0 :=
  ⟨(interestOnly_payment_and_rows loanD rfl).1,
    (interestOnly_payment_and_rows loanD rfl).2 rowD
      (by
        rw [buildSchedule_schedule, buildSchedule_payment_interestOnly loanD rfl,
          buildSchedule_periodicRate, buildSchedule_nPeriods, jsRound_eq]
        norm_num [loanD, rowD, clampMin0, periodsPerYear, scheduleLoop,
          effectivePrincipal, JSVal.jsMax, JSVal.jsLe, JSVal.jsLt, JSVal.sub, JSVal.mul])⟩

/-- Unfolding the loop one step when the guard does not stop it, without
assuming anything about the payment or balance shape: the tail restarts from
the emitted row's balance. -/
theorem scheduleLoop_succ_not_stop (t : PaymentType) (pay : JSVal) (r off : ℚ)
    (b : JSVal) (period k : ℕ) (hb : ¬ JSVal.jsLe b (JSVal.num 0) = true) :
    ∃ row rest, scheduleLoop t pay r off b period (k + 1) = row :: rest ∧
      rest = scheduleLoop t pay r off row.balance (period + 1) k := by
  simp only [scheduleLoop, if_neg hb]
  exact ⟨_, _, rfl, rfl⟩

/-- The loop never emits a row after a row whose balance is the number 0. -/
theorem scheduleLoop_no_row_after_zero (t : PaymentType) (pay : JSVal) (r off : ℚ) :
    ∀ (fuel : ℕ) (b : JSVal) (period i : ℕ) (row : Row),
      (scheduleLoop t pay r off b period fuel).get? i = some row →
      row.balance = JSVal.num 0 →
      (scheduleLoop t pay r off b period fuel).get? (i + 1) = none := by
  intro fuel
  induction fuel with
  | zero =>
    intro b period i row hrow hzero
    simp [scheduleLoop] at hrow
  | succ k ih =>
    intro b period i row hrow hzero
    by_cases hb : JSVal.jsLe b (JSVal.num 0) = true
    · rw [scheduleLoop_stop _ _ _ _ _ _ _ hb] at hrow
      simp at hrow
    · obtain ⟨row0, rest, heq, hrest⟩ := scheduleLoop_succ_not_stop t pay r off b period k hb
      rw [heq] at hrow ⊢
      cases i with
      | zero =>
        simp only [List.get?_cons_zero, Option.some.injEq] at hrow
        subst hrow
        rw [hrest, hzero, scheduleLoop_zero_balance]
        rfl
      | succ i =>
        simp only [List.get?_cons_succ] at hrow ⊢
        rw [hrest] at hrow ⊢
        exact ih _ _ _ _ hrow hzero

/-- C6: for every LoanParameters the schedule never exceeds `nPeriods` rows,
and the iteration stops once the balance reaches 0: no row is ever found
after a row whose balance field is 0. -/
theorem schedule_length_and_stop (params : LoanParameters) :
    (buildSchedule params).schedule.length ≤ (buildSchedule params).nPeriods.toNat ∧
    ∀ (i : ℕ) (row : Row),
      (buildSchedule params).schedule.get? i = some row →
      row.balance = JSVal.num 0 →
      (buildSchedule params).schedule.get? (i + 1) = none := by
  constructor
  · rw [buildSchedule_schedule]
    exact scheduleLoop_length_le _ _ _ _ _ _ _
  · intro i row hrow hzero
    rw [buildSchedule_schedule] at hrow ⊢
    exact scheduleLoop_no_row_after_zero _ _ _ _ _ _ _ _ _ hrow hzero

/-- C6 witness: the concrete two-period loan never exceeds `nPeriods` rows,
and after its second row (balance 0) no further row exists. -/
theorem schedule_length_and_stop_witness :
    (buildSchedule loanB).schedule.length ≤ (buildSchedule loanB).nPeriods.toNat ∧
    (buildSchedule loanB).schedule.get? 2 = none :=
  ⟨(schedule_length_and_stop loanB).1,
    (schedule_length_and_stop loanB).2 1 rowB1
      (by
        rw [buildSchedule_schedule, buildSchedule_payment_repayment loanB rfl,
          buildSchedule_periodicRate, buildSchedule_nPeriods, jsRound_eq]
        norm_num [loanB, rowB1, clampMin0, periodsPerYear, repaymentPayment, scheduleLoop,
          effectivePrincipal, JSVal.jsMax, JSVal.jsLe, JSVal.jsLt, JSVal.sub, JSVal.mul])
      rfl⟩

/-- When the period count is positive the schedule's payment is a number,
never NaN: the interest-only payment is a plain product, and both reachable
branches of `repaymentPayment` return numbers. -/
theorem buildSchedule_payment_isNum (params : LoanParameters)
    (h : 1 ≤ (buildSchedule params).nPeriods.toNat) :
    ∃ P, (buildSchedule params).payment = JSVal.num P := by
  cases htype : params.type with
  | interestOnly => exact ⟨_, buildSchedule_payment_interestOnly params htype⟩
  | repayment =>
    rw [buildSchedule_payment_repayment params htype]
    have hn : ¬ ((buildSchedule params).nPeriods ≤ 0) := by omega
    by_cases hr0 : (buildSchedule params).periodicRate = 0
    · rw [repaymentPayment, if_neg hn, if_pos hr0]
      exact ⟨_, rfl⟩
    · rw [repaymentPayment, if_neg hn, if_neg hr0]
      exact ⟨_, rfl⟩

/-- Every row emitted by the loop from a nonnegative number state with a
number payment has a nonnegative number balance and effective principal. -/
theorem scheduleLoop_rows_nonneg (t : PaymentType) (P r off : ℚ) :
    ∀ (fuel : ℕ) (b : ℚ) (period : ℕ), 0 ≤ b →
      ∀ row ∈ scheduleLoop t (JSVal.num P) r off (JSVal.num b) period fuel,
        (∃ q, row.balance = JSVal.num q ∧ 0 ≤ q) ∧
        (∃ q, row.effectivePrincipal = JSVal.num q ∧ 0 ≤ q) := by
  intro fuel
  induction fuel with
  | zero =>
    intro b period hb row hrow
    simp [scheduleLoop] at hrow
  | succ k ih =>
    intro b period hb row hrow
    by_cases hb0 : b ≤ 0
    · rw [scheduleLoop_stop _ _ _ _ _ _ _ (by simp [hb0])] at hrow
      simp at hrow
    · have hbpos : 0 < b := lt_of_not_le hb0
      rw [scheduleLoop_succ_pos t P r off b period k hbpos, List.mem_cons] at hrow
      rcases hrow with hrow | hrow
      · subst hrow
        refine ⟨⟨nbQ t P r off b, rfl, le_max_left 0 _⟩,
          ⟨effQ b off, rfl, le_max_left 0 _⟩⟩
      · exact ih (nbQ t P r off b) (period + 1) (le_max_left 0 _) row hrow

/-- C7: every row of every schedule has `balance ≥ 0` and
`effectivePrincipal ≥ 0` (as numbers, never NaN). -/
theorem schedule_rows_nonneg (params : LoanParameters) :
    ∀ row ∈ (buildSchedule params).schedule,
      (∃ q, row.balance = JSVal.num q ∧ 0 ≤ q) ∧
      (∃ q, row.effectivePrincipal = JSVal.num q ∧ 0 ≤ q) := by
  intro row hrow
  rw [buildSchedule_schedule] at hrow
  cases hfuel : (buildSchedule params).nPeriods.toNat with
  | zero =>
    rw [hfuel, scheduleLoop_fuel_zero] at hrow
    simp at hrow
  | succ k =>
    obtain ⟨P, hP⟩ := buildSchedule_payment_isNum params (by omega)
    rw [hP] at hrow
    exact scheduleLoop_rows_nonneg params.type P (buildSchedule params).periodicRate
      (clampMin0 params.offsetBalance) _ (clampMin0 params.principal) 1
      (clampMin0_nonneg _) row hrow

/-- C7 witness: the row of the concrete one-period loan has nonnegative
number-valued balance and effective principal. -/
theorem schedule_rows_nonneg_witness :
    (∃ q, rowA.balance = JSVal.num q ∧ 0 ≤ q) ∧
    (∃ q, rowA.effectivePrincipal = JSVal.num q ∧ 0 ≤ q) :=
  schedule_rows_nonneg loanA rowA
    (by
      rw [buildSchedule_schedule, buildSchedule_payment_repayment loanA rfl,
        buildSchedule_periodicRate, buildSchedule_nPeriods, jsRound_eq]
      norm_num [loanA, rowA, clampMin0, periodsPerYear, repaymentPayment, scheduleLoop,
        effectivePrincipal, JSVal.jsMax, JSVal.jsLe, JSVal.jsLt, JSVal.sub, JSVal.mul])

theorem clampMin0_mono {a b : ℚ} (h : a ≤ b) : clampMin0 a ≤ clampMin0 b := by
  unfold clampMin0
  split <;> split <;> linarith [clampMin0_nonneg b]

/-- For positive principal, nonnegative rate and positive period count, the
repayment payment is a positive number. -/
theorem repaymentPayment_pos (p r : ℚ) (n : ℤ) (hp : 0 < p) (hr : 0 ≤ r)
    (hn : 1 ≤ n) :
    ∃ P, repaymentPayment p r n = JSVal.num P ∧ 0 < P := by
  have hn0 : ¬ (n ≤ 0) := by omega
  by_cases hr0 : r = 0
  · refine ⟨p / (n : ℚ), by simp [repaymentPayment, hn0, hr0], ?_⟩
    have hnq : (0 : ℚ) < (n : ℚ) := by exact_mod_cast (by omega : (0 : ℤ) < n)
    exact div_pos hp hnq
  · have hrpos : 0 < r := lt_of_le_of_ne hr (Ne.symm hr0)
    have hA : (1 : ℚ) < (1 + r) ^ n.toNat :=
      one_lt_pow₀ (by linarith) (by omega)
    refine ⟨p * (r * (1 + r) ^ n.toNat) / ((1 + r) ^ n.toNat - 1), ?_, ?_⟩
    · rw [repaymentPayment, if_neg hn0, if_neg hr0]
    · have hApos : (0 : ℚ) < (1 + r) ^ n.toNat := by positivity
      exact div_pos (mul_pos hp (mul_pos hrpos hApos)) (by linarith)

/-- Full-offset loop invariant: while the (constant) offset is at least the
balance, every emitted row has effective principal 0 and interest 0, a
positive principalPaid when the payment is positive, and either consumes the
entire payment or ends at balance 0 when the payment is nonnegative. -/
theorem scheduleLoop_full_offset (P r off : ℚ) :
    ∀ (fuel : ℕ) (b : ℚ) (period : ℕ), 0 ≤ b → b ≤ off →
      ∀ row ∈ scheduleLoop .repayment (JSVal.num P) r off (JSVal.num b) period fuel,
        row.effectivePrincipal = JSVal.num 0 ∧ row.interest = JSVal.num 0 ∧
        (0 < P → ∃ q, row.principalPaid = JSVal.num q ∧ 0 < q) ∧
        (0 ≤ P → (row.principalPaid = JSVal.num P ∨ row.balance = JSVal.num 0)) := by
  intro fuel
  induction fuel with
  | zero =>
    intro b period hb hboff row hrow
    simp [scheduleLoop] at hrow
  | succ k ih =>
    intro b period hb hboff row hrow
    by_cases hb0 : b ≤ 0
    · rw [scheduleLoop_stop _ _ _ _ _ _ _ (by simp [hb0])] at hrow
      simp at hrow
    · have hbpos : 0 < b := lt_of_not_le hb0
      have heff : effQ b off = 0 := by
        have hoffmax : max 0 off = off := max_eq_right (le_trans hb hboff)
        simp [effQ, hoffmax]
        linarith
      have hppQ : ppQ .repayment P r off b = if b < max 0 P then b else max 0 P := by
        simp [ppQ, heff]
      rw [scheduleLoop_succ_pos .repayment P r off b period k hbpos, List.mem_cons] at hrow
      rcases hrow with hrow | hrow
      · subst hrow
        refine ⟨by rw [heff], by rw [heff]; simp, ?_, ?_⟩
        · intro hPpos
          rw [hppQ]
          by_cases hc : b < max 0 P
          · exact ⟨b, by rw [if_pos hc], hbpos⟩
          · exact ⟨max 0 P, by rw [if_neg hc], by simp [lt_max_iff, hPpos]⟩
        · intro hPnn
          simp only [nbQ, hppQ]
          by_cases hc : b < max 0 P
          · right
            simp [hc]
          · left
            rw [max_eq_right hPnn] at hc
            rw [max_eq_right hPnn, if_neg hc]
      · have hnb_le : nbQ .repayment P r off b ≤ b := by
          simp only [nbQ, hppQ]
          by_cases hc : b < max 0 P
          · rw [if_pos hc]
            simp [hbpos.le]
          · rw [if_neg hc]
            refine max_le hb ?_
            have : (0 : ℚ) ≤ max 0 P := le_max_left 0 P
            linarith
        exact ih (nbQ .repayment P r off b) (period + 1) (le_max_left 0 _)
          (le_trans hnb_le hboff) row hrow

/-- C5: for every repayment-type LoanParameters whose offsetBalance is at
least the principal, every row has effectivePrincipal 0 and interest 0, and
when the principal and period count are positive every row has
principalPaid > 0, with the entire fixed payment applied to principal each
period until the balance reaches 0. -/
theorem full_offset_schedule (params : LoanParameters)
    (htype : params.type = .repayment)
    (hoff : params.principal ≤ params.offsetBalance) :
    (∀ row ∈ (buildSchedule params).schedule,
      row.effectivePrincipal = JSVal.num 0 ∧ row.interest = JSVal.num 0) ∧
    (0 < params.principal → 1 ≤ (buildSchedule params).nPeriods →
      ∀ row ∈ (buildSchedule params).schedule,
        (∃ q, row.principalPaid = JSVal.num q ∧ 0 < q) ∧
        (row.principalPaid = (buildSchedule params).payment ∨
          row.balance = JSVal.num 0)) := by
  have hoffc : clampMin0 params.principal ≤ clampMin0 params.offsetBalance :=
    clampMin0_mono hoff
  constructor
  · intro row hrow
    rw [buildSchedule_schedule, htype] at hrow
    cases hfuel : (buildSchedule params).nPeriods.toNat with
    | zero =>
      rw [hfuel, scheduleLoop_fuel_zero] at hrow
      simp at hrow
    | succ k =>
      rw [hfuel] at hrow
      obtain ⟨P, hP⟩ := buildSchedule_payment_isNum params (by omega)
      rw [hP] at hrow
      have := scheduleLoop_full_offset P (buildSchedule params).periodicRate
        (clampMin0 params.offsetBalance) (k + 1) (clampMin0 params.principal) 1
        (clampMin0_nonneg _) hoffc row hrow
      exact ⟨this.1, this.2.1⟩
  · intro hp hn row hrow
    rw [buildSchedule_schedule, htype] at hrow
    have hpc : clampMin0 params.principal = params.principal :=
      clampMin0_of_nonneg _ hp.le
    obtain ⟨P, hP, hPpos⟩ := repaymentPayment_pos params.principal
      (buildSchedule params).periodicRate (buildSchedule params).nPeriods hp
      (buildSchedule_periodicRate_nonneg params) hn
    have hpay : (buildSchedule params).payment = JSVal.num P := by
      rw [buildSchedule_payment_repayment params htype, hpc, hP]
    rw [hpay, hpc] at hrow
    have := scheduleLoop_full_offset P (buildSchedule params).periodicRate
      (clampMin0 params.offsetBalance) (buildSchedule params).nPeriods.toNat
      params.principal 1 hp.le (hpc ▸ hoffc) row hrow
    refine ⟨this.2.2.1 hPpos, ?_⟩
    rw [hpay]
    exact this.2.2.2 hPpos.le

/-- C5 witness: the concrete fully-offset loan.  Its single row has effective
principal 0 and interest 0, positive principalPaid, and consumes the entire
payment or ends at balance 0. -/
theorem full_offset_schedule_witness :
    (rowC.effectivePrincipal = JSVal.num 0 ∧ rowC.interest = JSVal.num 0) ∧
    (∃ q, rowC.principalPaid = JSVal.num q ∧ 0 < q) ∧
    (rowC.principalPaid = (buildSchedule loanC).payment ∨
      rowC.balance = JSVal.num 0) :=
  ⟨(full_offset_schedule loanC rfl (by norm_num [loanC])).1 rowC
      (by
        rw [buildSchedule_schedule, buildSchedule_payment_repayment loanC rfl,
          buildSchedule_periodicRate, buildSchedule_nPeriods, jsRound_eq]
        norm_num [loanC, rowC, clampMin0, periodsPerYear, repaymentPayment, scheduleLoop,
          effectivePrincipal, JSVal.jsMax, JSVal.jsLe, JSVal.jsLt, JSVal.sub, JSVal.mul]),
    (full_offset_schedule loanC rfl (by norm_num [loanC])).2 (by norm_num [loanC])
      (by
        rw [buildSchedule_nPeriods, jsRound_eq]
        norm_num [loanC, clampMin0, periodsPerYear])
      rowC
      (by
        rw [buildSchedule_schedule, buildSchedule_payment_repayment loanC rfl,
          buildSchedule_periodicRate, buildSchedule_nPeriods, jsRound_eq]
        norm_num [loanC, rowC, clampMin0, periodsPerYear, repaymentPayment, scheduleLoop,
          effectivePrincipal, JSVal.jsMax, JSVal.jsLe, JSVal.jsLt, JSVal.sub, JSVal.mul])⟩

theorem scheduleLoop_stop_nonpos (t : PaymentType) (pay : JSVal) (r off b : ℚ)
    (period fuel : ℕ) (hb : b ≤ 0) :
    scheduleLoop t pay r off (JSVal.num b) period fuel = [] :=
  scheduleLoop_stop _ _ _ _ _ _ _ (by simp [hb])

theorem effQ_mono {b1 b2 o1 o2 : ℚ} (hb : b2 ≤ b1) (ho : o1 ≤ o2) :
    effQ b2 o2 ≤ effQ b1 o1 := by
  unfold effQ
  exact max_le_max le_rfl (sub_le_sub hb (max_le_max le_rfl ho))

theorem nbQ_rep (P r o b : ℚ) :
    nbQ .repayment P r o b = max 0 (b - max 0 (P - effQ b o * r)) := by
  simp only [nbQ, ppQ]
  by_cases hc : b < max 0 (P - effQ b o * r)
  · rw [if_pos hc]
    have h1 : b - max 0 (P - effQ b o * r) ≤ 0 := by linarith
    rw [sub_self, max_self, max_eq_left h1]
  · rw [if_neg hc]

theorem nbQ_mono (t : PaymentType) {P r o1 o2 b1 b2 : ℚ} (hr : 0 ≤ r)
    (hb : b2 ≤ b1) (ho : o1 ≤ o2) : nbQ t P r o2 b2 ≤ nbQ t P r o1 b1 := by
  cases t with
  | interestOnly =>
    simp only [nbQ, ppQ, sub_zero]
    exact max_le_max le_rfl hb
  | repayment =>
    rw [nbQ_rep, nbQ_rep]
    refine max_le_max le_rfl (sub_le_sub hb (max_le_max le_rfl (sub_le_sub le_rfl ?_)))
    exact mul_le_mul_of_nonneg_right (effQ_mono hb ho) hr

/-- Offset monotonicity of the loop: with the same number payment and rate,
a larger (nonnegative) offset and a smaller or equal starting balance give,
at every position present in both runs, a smaller or equal interest; the
interest is strictly smaller unless it is already 0. -/
theorem scheduleLoop_interest_mono (t : PaymentType) (P r o1 o2 : ℚ) (hr : 0 ≤ r)
    (ho1 : 0 ≤ o1) (ho : o1 ≤ o2) :
    ∀ (fuel : ℕ) (b1 b2 : ℚ) (period : ℕ), 0 ≤ b2 → b2 ≤ b1 →
      ∀ (i : ℕ) (r1 r2 : Row),
        (scheduleLoop t (JSVal.num P) r o1 (JSVal.num b1) period fuel).get? i = some r1 →
        (scheduleLoop t (JSVal.num P) r o2 (JSVal.num b2) period fuel).get? i = some r2 →
        ∃ q1 q2, r1.interest = JSVal.num q1 ∧ r2.interest = JSVal.num q2 ∧
          q2 ≤ q1 ∧ (o1 < o2 → q2 < q1 ∨ q2 = 0) := by
  intro fuel
  induction fuel with
  | zero =>
    intro b1 b2 period hb2 hb i r1 r2 h1 h2
    simp [scheduleLoop] at h1
  | succ k ih =>
    intro b1 b2 period hb2 hb i r1 r2 h1 h2
    have hb1pos : 0 < b1 := by
      by_contra hc
      push_neg at hc
      rw [scheduleLoop_stop_nonpos _ _ _ _ _ _ _ hc] at h1
      simp at h1
    have hb2pos : 0 < b2 := by
      by_contra hc
      push_neg at hc
      rw [scheduleLoop_stop_nonpos _ _ _ _ _ _ _ hc] at h2
      simp at h2
    rw [scheduleLoop_succ_pos t P r o1 b1 period k hb1pos] at h1
    rw [scheduleLoop_succ_pos t P r o2 b2 period k hb2pos] at h2
    cases i with
    | zero =>
      simp only [List.get?_cons_zero, Option.some.injEq] at h1 h2
      subst h1
      subst h2
      refine ⟨effQ b1 o1 * r, effQ b2 o2 * r, rfl, rfl, ?_, ?_⟩
      · exact mul_le_mul_of_nonneg_right (effQ_mono hb ho) hr
      · intro holt
        by_cases hq2 : effQ b2 o2 * r = 0
        · exact Or.inr hq2
        · left
          have hrne : r ≠ 0 := fun h => hq2 (by rw [h, mul_zero])
          have hrpos : 0 < r := lt_of_le_of_ne hr (Ne.symm hrne)
          have heff2ne : effQ b2 o2 ≠ 0 := fun h => hq2 (by rw [h, zero_mul])
          have ho2 : max 0 o2 = o2 := max_eq_right (le_trans ho1 ho)
          have heff2pos : 0 < b2 - o2 := by
            by_contra hcc
            push_neg at hcc
            exact heff2ne (by unfold effQ; rw [ho2, max_eq_left hcc])
          have heff2 : effQ b2 o2 = b2 - o2 := by
            unfold effQ
            rw [ho2, max_eq_right heff2pos.le]
          have ho1e : max 0 o1 = o1 := max_eq_right ho1
          have heff1 : b2 - o1 ≤ effQ b1 o1 := by
            unfold effQ
            rw [ho1e]
            exact le_trans (by linarith) (le_max_right _ _)
          have hlt : effQ b2 o2 < effQ b1 o1 := by
            rw [heff2]
            linarith
          exact mul_lt_mul_of_pos_right hlt hrpos
    | succ i =>
      simp only [List.get?_cons_succ] at h1 h2
      exact ih (nbQ t P r o1 b1) (nbQ t P r o2 b2) (period + 1) (le_max_left 0 _)
        (nbQ_mono t hr hb ho) i r1 r2 h1 h2

/-- C3: between two schedules differing only in offsetBalance (fixed
principal, rate, term, frequency and payment type), a larger offset never
increases the interest of any period present in both schedules (it strictly
decreases it or keeps it equal at the zero bound), and whenever
`offsetBalance < principal`, the first-period interest of the offset
schedule is lower than the zero-offset one by exactly
`offsetBalance * periodicRate`. -/
theorem offset_interest_monotone (p1 p2 : LoanParameters)
    (hprin : p2.principal = p1.principal) (hrate : p2.annualRatePct = p1.annualRatePct)
    (hyears : p2.years = p1.years) (hfreq : p2.frequency = p1.frequency)
    (htype : p2.type = p1.type) (ho : p1.offsetBalance ≤ p2.offsetBalance) :
    (∀ (i : ℕ) (r1 r2 : Row),
      (buildSchedule p1).schedule.get? i = some r1 →
      (buildSchedule p2).schedule.get? i = some r2 →
      ∃ q1 q2, r1.interest = JSVal.num q1 ∧ r2.interest = JSVal.num q2 ∧
        q2 ≤ q1 ∧
        (0 ≤ p1.offsetBalance → p1.offsetBalance < p2.offsetBalance →
          q2 < q1 ∨ q2 = 0)) ∧
    (p1.offsetBalance = 0 → 0 ≤ p2.offsetBalance → p2.offsetBalance < p1.principal →
      1 ≤ (buildSchedule p1).nPeriods →
      ∃ r1 r2,
        (buildSchedule p1).schedule.head? = some r1 ∧
        (buildSchedule p2).schedule.head? = some r2 ∧
        ∃ q1 q2, r1.interest = JSVal.num q1 ∧ r2.interest = JSVal.num q2 ∧
          q1 - q2 = p2.offsetBalance * (buildSchedule p1).periodicRate) := by
  have hR : (buildSchedule p2).periodicRate = (buildSchedule p1).periodicRate := by
    rw [buildSchedule_periodicRate, buildSchedule_periodicRate, hrate, hfreq]
  have hN : (buildSchedule p2).nPeriods = (buildSchedule p1).nPeriods := by
    rw [buildSchedule_nPeriods, buildSchedule_nPeriods, hyears, hfreq]
  have hPay : (buildSchedule p2).payment = (buildSchedule p1).payment := by
    cases ht : p1.type with
    | interestOnly =>
      rw [buildSchedule_payment_interestOnly p1 ht,
        buildSchedule_payment_interestOnly p2 (htype.trans ht), hprin, hR]
    | repayment =>
      rw [buildSchedule_payment_repayment p1 ht,
        buildSchedule_payment_repayment p2 (htype.trans ht), hprin, hR, hN]
  constructor
  · intro i r1 r2 h1 h2
    rw [buildSchedule_schedule] at h1 h2
    rw [htype, hPay, hR, hN, hprin] at h2
    cases hfuel : (buildSchedule p1).nPeriods.toNat with
    | zero =>
      rw [hfuel, scheduleLoop_fuel_zero] at h1
      simp at h1
    | succ k =>
      rw [hfuel] at h1 h2
      obtain ⟨P, hP⟩ := buildSchedule_payment_isNum p1 (by omega)
      rw [hP] at h1 h2
      have hmain := scheduleLoop_interest_mono p1.type P (buildSchedule p1).periodicRate
        (clampMin0 p1.offsetBalance) (clampMin0 p2.offsetBalance)
        (buildSchedule_periodicRate_nonneg p1) (clampMin0_nonneg _) (clampMin0_mono ho)
        (k + 1) (clampMin0 p1.principal) (clampMin0 p1.principal) 1
        (clampMin0_nonneg _) le_rfl i r1 r2 h1 h2
      obtain ⟨q1, q2, hq1, hq2, hle, hstrict⟩ := hmain
      refine ⟨q1, q2, hq1, hq2, hle, ?_⟩
      intro h0 hraw
      apply hstrict
      rw [clampMin0_of_nonneg _ h0, clampMin0_of_nonneg _ (le_trans h0 ho)]
      exact hraw
  · intro hz h02 hop hn
    have hppos : 0 < p1.principal := lt_of_le_of_lt h02 hop
    have hpc : clampMin0 p1.principal = p1.principal := clampMin0_of_nonneg _ hppos.le
    have hzc : clampMin0 p1.offsetBalance = 0 := by
      rw [hz]
      exact clampMin0_of_nonneg _ le_rfl
    have ho2c : clampMin0 p2.offsetBalance = p2.offsetBalance := clampMin0_of_nonneg _ h02
    obtain ⟨k, hk⟩ : ∃ k, (buildSchedule p1).nPeriods.toNat = k + 1 :=
      ⟨(buildSchedule p1).nPeriods.toNat - 1, by omega⟩
    obtain ⟨P, hP⟩ := buildSchedule_payment_isNum p1 (by omega)
    have hs1 : (buildSchedule p1).schedule =
        scheduleLoop p1.type (JSVal.num P) (buildSchedule p1).periodicRate 0
          (JSVal.num p1.principal) 1 (k + 1) := by
      rw [buildSchedule_schedule, hP, hzc, hpc, hk]
    have hs2 : (buildSchedule p2).schedule =
        scheduleLoop p1.type (JSVal.num P) (buildSchedule p1).periodicRate
          p2.offsetBalance (JSVal.num p1.principal) 1 (k + 1) := by
      rw [buildSchedule_schedule, htype, hPay, hP, hR, hN, hprin, ho2c, hpc, hk]
    rw [hs1, hs2, scheduleLoop_succ_pos _ _ _ _ _ _ _ hppos,
      scheduleLoop_succ_pos _ _ _ _ _ _ _ hppos]
    refine ⟨_, _, List.head?_cons, List.head?_cons, _, _, rfl, rfl, ?_⟩
    have he1 : effQ p1.principal 0 = p1.principal := by
      unfold effQ
      rw [max_self, sub_zero]
      exact max_eq_right hppos.le
    have he2 : effQ p1.principal p2.offsetBalance = p1.principal - p2.offsetBalance := by
      unfold effQ
      rw [max_eq_right h02]
      exact max_eq_right (by linarith)
    rw [he1, he2]
    ring

/-- C3 witness: the concrete one-period 12%-rate loan against its 50-offset
variant.  The first-period interests are 1 and 1/2, the comparison holds at
index 0, and the delta is exactly `50 * periodicRate`. -/
theorem offset_interest_monotone_witness :
    (∃ q1 q2,
      rowE1.interest = JSVal.num q1 ∧ rowE2.interest = JSVal.num q2 ∧
      q2 ≤ q1 ∧
      (0 ≤ loanE.offsetBalance → loanE.offsetBalance < loanE2.offsetBalance →
        q2 < q1 ∨ q2 = 0)) ∧
    (∃ r1 r2,
      (buildSchedule loanE).schedule.head? = some r1 ∧
      (buildSchedule loanE2).schedule.head? = some r2 ∧
      ∃ q1 q2, r1.interest = JSVal.num q1 ∧ r2.interest = JSVal.num q2 ∧
        q1 - q2 = loanE2.offsetBalance * (buildSchedule loanE).periodicRate) := by
  have h := offset_interest_monotone loanE loanE2 rfl rfl rfl rfl rfl (by norm_num [loanE, loanE2])
  refine ⟨?_, h.2 rfl (by norm_num [loanE2]) (by norm_num [loanE, loanE2])
    (by
      rw [buildSchedule_nPeriods, jsRound_eq]
      norm_num [clampMin0, periodsPerYear, loanE])⟩
  exact h.1 0 rowE1 rowE2
    (by
      rw [buildSchedule_schedule, buildSchedule_payment_repayment loanE rfl,
        buildSchedule_periodicRate, buildSchedule_nPeriods, jsRound_eq]
      norm_num [loanE, rowE1, clampMin0, periodsPerYear, repaymentPayment, scheduleLoop,
        effectivePrincipal, JSVal.jsMax, JSVal.jsLe, JSVal.jsLt, JSVal.sub, JSVal.mul])
    (by
      rw [buildSchedule_schedule, buildSchedule_payment_repayment loanE2 rfl,
        buildSchedule_periodicRate, buildSchedule_nPeriods, jsRound_eq]
      norm_num [loanE2, rowE2, clampMin0, periodsPerYear, repaymentPayment, scheduleLoop,
        effectivePrincipal, JSVal.jsMax, JSVal.jsLe, JSVal.jsLt, JSVal.sub, JSVal.mul])

/-! ## Lemmas about the rent-vs-buy projector -/

/-- Splitting the paired inflation fold of `rentVsBuy` into the rational
rent accumulator and the JS-valued ownership accumulator. -/
theorem foldl_pair_split (f : ℕ → ℚ) (g : ℕ → JSVal) :
    ∀ (L : List ℕ) (a : ℚ) (v : JSVal),
      L.foldl (fun acc m => (acc.1 + f m, acc.2.add (g m))) (a, v) =
        (a + (L.map f).sum, L.foldl (fun w m => w.add (g m)) v) := by
  intro L
  induction L with
  | nil =>
    intro a v
    simp
  | cons m L ih =>
    intro a v
    simp only [List.foldl_cons, List.map_cons, List.sum_cons]
    rw [ih]
    rw [add_assoc]

/-- A fold of JS additions of numbers starting from a number is the number of
the rational sum. -/
theorem foldl_add_num (h : ℕ → ℚ) :
    ∀ (L : List ℕ) (s : ℚ),
      L.foldl (fun w m => w.add (JSVal.num (h m))) (JSVal.num s) =
        JSVal.num (s + (L.map h).sum) := by
  intro L
  induction L with
  | nil =>
    intro s
    simp
  | cons m L ih =>
    intro s
    simp only [List.foldl_cons, List.map_cons, List.sum_cons, JSVal.add_num]
    rw [ih, add_assoc]

/-- A fold whose step ignores its state and returns NaN ends at NaN on any
nonempty list. -/
theorem foldl_const_nan :
    ∀ (L : List ℕ) (v : JSVal), L ≠ [] →
      L.foldl (fun _ _ => JSVal.nan) v = JSVal.nan := by
  intro L
  induction L with
  | nil =>
    intro v h
    exact absurd rfl h
  | cons m L ih =>
    intro v _
    simp only [List.foldl_cons]
    cases L with
    | nil => rfl
    | cons m2 L2 => exact ih _ (by simp)

theorem rentVsBuy_mortgageMonthly (rpow : ℚ → ℚ → ℚ) (calcSdlt : ℚ → SdltResult)
    (ap : AffordabilityParams) :
    (rentVsBuy rpow calcSdlt ap).mortgageMonthly =
      monthlyMortgagePayment (max 0 (ap.price - ap.price * clamp01 (ap.depositPct / 100)))
        ap.mortgageRatePct ap.termYears := rfl

theorem rentVsBuy_ownerMonthly (rpow : ℚ → ℚ → ℚ) (calcSdlt : ℚ → SdltResult)
    (ap : AffordabilityParams) :
    (rentVsBuy rpow calcSdlt ap).ownerMonthly =
      (rentVsBuy rpow calcSdlt ap).mortgageMonthly.add
        (JSVal.num ap.ownerMonthlyCosts) := rfl

theorem rentVsBuy_rentTotalBasic (rpow : ℚ → ℚ → ℚ) (calcSdlt : ℚ → SdltResult)
    (ap : AffordabilityParams) :
    (rentVsBuy rpow calcSdlt ap).rentTotalBasic =
      (ap.rentMonthly + ap.rentExtraMonthly) *
        ((jsRound (ap.horizonYears * 12) : ℤ) : ℚ) := rfl

theorem rentVsBuy_buyTotalBasic (rpow : ℚ → ℚ → ℚ) (calcSdlt : ℚ → SdltResult)
    (ap : AffordabilityParams) :
    (rentVsBuy rpow calcSdlt ap).buyTotalBasic =
      (rentVsBuy rpow calcSdlt ap).ownerMonthly.mul
        (JSVal.num ((jsRound (ap.horizonYears * 12) : ℤ) : ℚ)) := rfl

theorem rentVsBuy_buyNetCost (rpow : ℚ → ℚ → ℚ) (calcSdlt : ℚ → SdltResult)
    (ap : AffordabilityParams) :
    (rentVsBuy rpow calcSdlt ap).buyNetCost =
      ((rentVsBuy rpow calcSdlt ap).buyTotal.add
        (JSVal.num (rentVsBuy rpow calcSdlt ap).buyUpfront)).sub
        (rentVsBuy rpow calcSdlt ap).equity := rfl

theorem rentVsBuy_rentTotal (rpow : ℚ → ℚ → ℚ) (calcSdlt : ℚ → SdltResult)
    (ap : AffordabilityParams) :
    (rentVsBuy rpow calcSdlt ap).rentTotal =
      ((List.range (jsRound (ap.horizonYears * 12)).toNat).map
        (fun (m : ℕ) => (ap.rentMonthly + ap.rentExtraMonthly) *
          rpow (1 + ap.rentInflationPct / 100) ((m : ℚ) / 12))).sum := by
  simp only [rentVsBuy]
  rw [foldl_pair_split]
  dsimp only
  rw [zero_add]

theorem rentVsBuy_buyTotal (rpow : ℚ → ℚ → ℚ) (calcSdlt : ℚ → SdltResult)
    (ap : AffordabilityParams) :
    (rentVsBuy rpow calcSdlt ap).buyTotal =
      (List.range (jsRound (ap.horizonYears * 12)).toNat).foldl
        (fun (w : JSVal) (m : ℕ) => w.add ((rentVsBuy rpow calcSdlt ap).ownerMonthly.mul
          (JSVal.num (rpow (1 + ap.ownerCostInflationPct / 100) ((m : ℚ) / 12)))))
        (JSVal.num 0) := by
  simp only [rentVsBuy]
  rw [foldl_pair_split]

theorem clamp01_le_one (x : ℚ) : clamp01 x ≤ 1 := by
  unfold clamp01
  exact max_le zero_le_one (min_le_left _ _)

theorem clamp01_idem (x : ℚ) : clamp01 (clamp01 x) = clamp01 x := by
  have h0 : 0 ≤ clamp01 x := le_max_left _ _
  have h1 : clamp01 x ≤ 1 := clamp01_le_one x
  show max 0 (min 1 (clamp01 x)) = clamp01 x
  rw [min_eq_right h1, max_eq_right h0]

/-- C2 counterexample: the Affordability Projector does not clamp a negative
`rentMonthly`.  With rent -100 over a 12-month horizon the basic rent total
is -1200, different from the 0 obtained with the field replaced by 0, and
negative (out of range). -/
theorem projector_negative_rent_not_clamped :
    (rentVsBuy powOne sdltZero apNeg).rentTotalBasic ≠
      (rentVsBuy powOne sdltZero apNeg0).rentTotalBasic ∧
    (rentVsBuy powOne sdltZero apNeg).rentTotalBasic < 0 := by
  have h1 : (rentVsBuy powOne sdltZero apNeg).rentTotalBasic = -1200 := by
    rw [rentVsBuy_rentTotalBasic, jsRound_eq]
    norm_num [apNeg]
  have h2 : (rentVsBuy powOne sdltZero apNeg0).rentTotalBasic = 0 := by
    rw [rentVsBuy_rentTotalBasic, jsRound_eq]
    norm_num [apNeg0, apNeg]
  rw [h1, h2]
  norm_num

/-- C2 (amended): the Schedule Builder clamps its four numeric loan fields
(principal, annualRatePct, years, offsetBalance) to at least 0 before use,
so a negative value there gives the same result as 0; the Affordability
Projector clamps only the deposit fraction to `[0,1]` (and floors the
derived principal at 0) — its other numeric inputs, such as `rentMonthly`,
are used unclamped. -/
theorem calculators_clamping_amended (params : LoanParameters) (rpow : ℚ → ℚ → ℚ)
    (calcSdlt : ℚ → SdltResult) (ap : AffordabilityParams) :
    buildSchedule params = buildSchedule (clampLoanParams params) ∧
    rentVsBuy rpow calcSdlt ap = rentVsBuy rpow calcSdlt (clampDepositPct ap) := by
  constructor
  · simp [buildSchedule, clampLoanParams, clampMin0_idem]
  · have h100 : (100 : ℚ) * clamp01 (ap.depositPct / 100) / 100 =
        clamp01 (ap.depositPct / 100) := by
      rw [mul_comm, mul_div_assoc]
      norm_num
    have hdep : clamp01 ((100 : ℚ) * clamp01 (ap.depositPct / 100) / 100) =
        clamp01 (ap.depositPct / 100) := by
      rw [h100, clamp01_idem]
    simp only [rentVsBuy, clampDepositPct, hdep]

/-- C8: the inflation-adjusted cumulative totals of the projector are the
sums over months `m = 0 … horizonMonths-1` of
`rentMonthly0 * (1+rentInflation)^(m/12)` and
`ownerMonthly * (1+ownerInflation)^(m/12)`: a fractional-year exponent
`m/12` applied every month. -/
theorem inflation_adjusted_totals (rpow : ℚ → ℚ → ℚ) (calcSdlt : ℚ → SdltResult)
    (ap : AffordabilityParams) :
    (rentVsBuy rpow calcSdlt ap).rentTotal =
      ((List.range (jsRound (ap.horizonYears * 12)).toNat).map
        (fun (m : ℕ) => (ap.rentMonthly + ap.rentExtraMonthly) *
          rpow (1 + ap.rentInflationPct / 100) ((m : ℚ) / 12))).sum ∧
    ∀ c : ℚ, (rentVsBuy rpow calcSdlt ap).ownerMonthly = JSVal.num c →
      (rentVsBuy rpow calcSdlt ap).buyTotal =
        JSVal.num (((List.range (jsRound (ap.horizonYears * 12)).toNat).map
          (fun (m : ℕ) => c *
            rpow (1 + ap.ownerCostInflationPct / 100) ((m : ℚ) / 12))).sum) := by
  refine ⟨rentVsBuy_rentTotal rpow calcSdlt ap, ?_⟩
  intro c hc
  rw [rentVsBuy_buyTotal, hc]
  simp only [JSVal.mul_num]
  rw [foldl_add_num, zero_add]

/-- C8 witness: the concrete one-month parameters, whose owner monthly cost
is the number 1000. -/
theorem inflation_adjusted_totals_witness :
    (rentVsBuy powOne sdltZero apW8).rentTotal =
      ((List.range (jsRound (apW8.horizonYears * 12)).toNat).map
        (fun (m : ℕ) => (apW8.rentMonthly + apW8.rentExtraMonthly) *
          powOne (1 + apW8.rentInflationPct / 100) ((m : ℚ) / 12))).sum ∧
    (rentVsBuy powOne sdltZero apW8).buyTotal =
      JSVal.num (((List.range (jsRound (apW8.horizonYears * 12)).toNat).map
        (fun (m : ℕ) => (1000 : ℚ) *
          powOne (1 + apW8.ownerCostInflationPct / 100) ((m : ℚ) / 12))).sum) :=
  ⟨(inflation_adjusted_totals powOne sdltZero apW8).1,
    (inflation_adjusted_totals powOne sdltZero apW8).2 1000
      (by
        rw [rentVsBuy_ownerMonthly, rentVsBuy_mortgageMonthly]
        norm_num [apW8, monthlyMortgagePayment, jsRound_eq, repaymentPayment, clamp01])⟩

/-- C10: when the term rounds to a month count at most 0 while the horizon
has at least one month, the NaN sentinel from the payment solver propagates
unchecked: mortgageMonthly, ownerMonthly, buyTotalBasic, buyTotal and
buyNetCost are all NaN. -/
theorem projector_nan_propagates (rpow : ℚ → ℚ → ℚ) (calcSdlt : ℚ → SdltResult)
    (ap : AffordabilityParams)
    (hterm : jsRound (ap.termYears * 12) ≤ 0)
    (hhor : 1 ≤ jsRound (ap.horizonYears * 12)) :
    (rentVsBuy rpow calcSdlt ap).mortgageMonthly = JSVal.nan ∧
    (rentVsBuy rpow calcSdlt ap).ownerMonthly = JSVal.nan ∧
    (rentVsBuy rpow calcSdlt ap).buyTotalBasic = JSVal.nan ∧
    (rentVsBuy rpow calcSdlt ap).buyTotal = JSVal.nan ∧
    (rentVsBuy rpow calcSdlt ap).buyNetCost = JSVal.nan := by
  have h1 : (rentVsBuy rpow calcSdlt ap).mortgageMonthly = JSVal.nan := by
    rw [rentVsBuy_mortgageMonthly]
    simp [monthlyMortgagePayment, hterm]
  have h2 : (rentVsBuy rpow calcSdlt ap).ownerMonthly = JSVal.nan := by
    rw [rentVsBuy_ownerMonthly, h1]
    rfl
  have h4 : (rentVsBuy rpow calcSdlt ap).buyTotal = JSVal.nan := by
    rw [rentVsBuy_buyTotal]
    simp only [h2, JSVal.nan_mul, JSVal.add_nan]
    exact foldl_const_nan _ _ (by rw [Ne, List.range_eq_nil]; omega)
  refine ⟨h1, h2, ?_, h4, ?_⟩
  · rw [rentVsBuy_buyTotalBasic, h2]
    rfl
  · rw [rentVsBuy_buyNetCost, h4]
    rfl

/-- C10 witness: the concrete zero-term, one-month-horizon parameters. -/
theorem projector_nan_propagates_witness :
    (rentVsBuy powOne sdltZero apW10).mortgageMonthly = JSVal.nan ∧
    (rentVsBuy powOne sdltZero apW10).ownerMonthly = JSVal.nan ∧
    (rentVsBuy powOne sdltZero apW10).buyTotalBasic = JSVal.nan ∧
    (rentVsBuy powOne sdltZero apW10).buyTotal = JSVal.nan ∧
    (rentVsBuy powOne sdltZero apW10).buyNetCost = JSVal.nan :=
  projector_nan_propagates powOne sdltZero apW10
    (by rw [jsRound_eq]; norm_num [apW10])
    (by rw [jsRound_eq]; norm_num [apW10])

end MortgageCalc
